import Mathlib

/-!
Verification of the candidate-annotation core of the `rag-system` repository.

The Python services are shallowly embedded: texts are `List Char` (Python
`str`), confidences and distances are `ℚ` (exact arithmetic in place of the
floats, whose operations here are products, subtraction and `min` only), and
every external effect (the generative-model call, the JSON decoding of its
reply, provider construction) is an explicit outcome parameter, with one
constructor per `except` arm of the Python code.
-/

set_option maxRecDepth 16384

namespace RagSystem

/-- Structural equality on `Except` values, used to state results about the
embedded fallible operations. -/
instance {ε α : Type} [DecidableEq ε] [DecidableEq α] : DecidableEq (Except ε α) :=
  fun x y =>
    match x, y with
    | .ok a, .ok b =>
      if h : a = b then isTrue (by rw [h]) else isFalse (by intro hc; cases hc; exact h rfl)
    | .error a, .error b =>
      if h : a = b then isTrue (by rw [h]) else isFalse (by intro hc; cases hc; exact h rfl)
    | .ok _, .error _ => isFalse (by intro hc; cases hc)
    | .error _, .ok _ => isFalse (by intro hc; cases hc)

/-! ## Python string primitives -/

/-- Python slice `s[start:stop]` for non-negative indices: both bounds clamp
to the length, and an empty list results when `stop ≤ start`. -/
def pySlice (s : List Char) (start stop : Nat) : List Char :=
  (s.drop start).take (stop - start)

/-- Scan for the first index at which `sub` occurs in the remaining text,
starting the numbering at `i`; backs Python `str.find` / the `in` operator. -/
def pyFindAux (sub : List Char) : List Char → Nat → Option Nat
  | [], i => if sub.isPrefixOf ([] : List Char) then some i else none
  | c :: rest, i =>
    if sub.isPrefixOf (c :: rest) then some i else pyFindAux sub rest (i + 1)

/-- Python `sub in s` (substring containment). -/
def pyContains (sub s : List Char) : Bool :=
  (pyFindAux sub s 0).isSome

/-- Python `s.find(sub)` under the guard `sub in s` (as used by the services,
which always test containment first): the index of the first occurrence. -/
def pyFindIdx (s sub : List Char) : Nat :=
  (pyFindAux sub s 0).getD 0

/-- Count non-overlapping occurrences of a non-empty `needle`, scanning left
to right and skipping past each match, as Python `str.count` does; `skip`
counts the positions still covered by the previous match. -/
def pyCountAux (needle : List Char) (skip : Nat) : List Char → Nat
  | [] => 0
  | c :: rest =>
    if 0 < skip then pyCountAux needle (skip - 1) rest
    else if needle.isPrefixOf (c :: rest) then
      pyCountAux needle (needle.length - 1) rest + 1
    else
      pyCountAux needle 0 rest

/-- Python `hay.count(needle)`; an empty needle matches at every gap,
giving `len(hay) + 1`. -/
def pyCount (hay needle : List Char) : Nat :=
  if needle = [] then hay.length + 1 else pyCountAux needle 0 hay

/-! ## Regular-expression fragment

Every pattern in `CorrService.financial_patterns` is a plain sequence of
character classes (for example `投[资姿]`), so a pattern is embedded as the
list of its classes, each class the list of its admissible characters. -/

/-- Match a class-sequence pattern at the head of the text, returning the
matched prefix. -/
def reMatchHere : List (List Char) → List Char → Option (List Char)
  | [], _ => some []
  | _ :: _, [] => none
  | cls :: p, c :: s =>
    if c ∈ cls then (reMatchHere p s).map (fun m => c :: m) else none

/-- Python `re.finditer`: scan left to right, emit every non-overlapping
match as `(start, matched text)` and resume right after it; `skip` counts
the positions still covered by the previous match. -/
def reFinditerAux (p : List (List Char)) : Nat → Nat → List Char → List (Nat × List Char)
  | _, _, [] => []
  | pos, skip, c :: rest =>
    if 0 < skip then reFinditerAux p (pos + 1) (skip - 1) rest
    else
      match reMatchHere p (c :: rest) with
      | some m => (pos, m) :: reFinditerAux p (pos + 1) (max 1 m.length - 1) rest
      | none => reFinditerAux p (pos + 1) 0 rest

/-- All non-overlapping matches of a pattern in a text. -/
def reFinditer (p : List (List Char)) (s : List Char) : List (Nat × List Char) :=
  reFinditerAux p 0 0 s

/-! ## First-occurrence deduplication

`NERService._merge_entities` and `CorrService._merge_corrections` share the
same loop shape: walk a list keeping a `seen` set of keys and append each
item whose key is new.  `firstOccurLoop` is that loop; `firstOccur` and
`firstOccurSeen` are its two projections, used to reason about it. -/

section FirstOccur

variable {α κ : Type} [DecidableEq κ] (key : α → κ)

/-- The accumulator-passing loop of the Python merge functions. -/
def firstOccurLoop (seen : List κ) (acc : List α) : List α → List κ × List α
  | [] => (seen, acc)
  | x :: xs =>
    if key x ∈ seen then firstOccurLoop seen acc xs
    else firstOccurLoop (key x :: seen) (acc ++ [x]) xs

/-- Keep the first occurrence of each key not already in `seen`. -/
def firstOccur (seen : List κ) : List α → List α
  | [] => []
  | x :: xs =>
    if key x ∈ seen then firstOccur seen xs
    else x :: firstOccur (key x :: seen) xs

/-- The `seen` set after the loop has consumed the list. -/
def firstOccurSeen (seen : List κ) : List α → List κ
  | [] => seen
  | x :: xs =>
    if key x ∈ seen then firstOccurSeen seen xs
    else firstOccurSeen (key x :: seen) xs

theorem firstOccurLoop_eq (seen : List κ) (acc : List α) (xs : List α) :
    firstOccurLoop key seen acc xs = (firstOccurSeen key seen xs, acc ++ firstOccur key seen xs) := by
  induction xs generalizing seen acc with
  | nil => simp [firstOccurLoop, firstOccurSeen, firstOccur]
  | cons x xs ih =>
    by_cases h : key x ∈ seen
    · simp [firstOccurLoop, firstOccurSeen, firstOccur, h, ih]
    · simp [firstOccurLoop, firstOccurSeen, firstOccur, h, ih]

theorem firstOccur_append (seen : List κ) (xs ys : List α) :
    firstOccur key seen (xs ++ ys) =
      firstOccur key seen xs ++ firstOccur key (firstOccurSeen key seen xs) ys := by
  induction xs generalizing seen with
  | nil => simp [firstOccur, firstOccurSeen]
  | cons x xs ih =>
    by_cases h : key x ∈ seen
    · simp [firstOccur, firstOccurSeen, h, ih]
    · simp [firstOccur, firstOccurSeen, h, ih]

theorem firstOccur_sublist (seen : List κ) (xs : List α) :
    (firstOccur key seen xs).Sublist xs := by
  induction xs generalizing seen with
  | nil => simp [firstOccur]
  | cons x xs ih =>
    by_cases h : key x ∈ seen
    · simp only [firstOccur, h, if_pos]
      exact (ih seen).cons x
    · simp only [firstOccur, h, if_neg, not_false_iff]
      exact (ih (key x :: seen)).cons₂ x

theorem key_not_seen_of_mem_firstOccur {seen : List κ} {xs : List α} {e : α}
    (h : e ∈ firstOccur key seen xs) : key e ∉ seen := by
  induction xs generalizing seen with
  | nil => simp [firstOccur] at h
  | cons x xs ih =>
    by_cases hx : key x ∈ seen
    · rw [firstOccur, if_pos hx] at h
      exact ih h
    · rw [firstOccur, if_neg hx] at h
      rcases List.mem_cons.mp h with rfl | h
      · exact hx
      · intro hc
        exact ih h (List.mem_cons_of_mem _ hc)

theorem firstOccur_pairwise (seen : List κ) (xs : List α) :
    (firstOccur key seen xs).Pairwise (fun a b => key a ≠ key b) := by
  induction xs generalizing seen with
  | nil => simp [firstOccur]
  | cons x xs ih =>
    by_cases hx : key x ∈ seen
    · rw [firstOccur, if_pos hx]
      exact ih seen
    · rw [firstOccur, if_neg hx]
      refine List.Pairwise.cons ?_ (ih (key x :: seen))
      intro b hb hkey
      exact key_not_seen_of_mem_firstOccur key hb (by simp [← hkey])

theorem mem_firstOccur_iff {seen : List κ} {xs : List α} {e : α} :
    e ∈ firstOccur key seen xs ↔
      key e ∉ seen ∧ xs.find? (fun y => decide (key y = key e)) = some e := by
  induction xs generalizing seen with
  | nil => simp [firstOccur]
  | cons x xs ih =>
    by_cases hk : key x = key e
    · by_cases hx : key x ∈ seen
      · rw [firstOccur, if_pos hx]
        rw [List.find?_cons_of_pos _ (by simpa using hk)]
        constructor
        · intro h
          exact absurd (hk ▸ hx) (key_not_seen_of_mem_firstOccur key h)
        · rintro ⟨hne, heq⟩
          obtain rfl := Option.some.inj heq
          exact absurd hx (hk ▸ hne)
      · rw [firstOccur, if_neg hx]
        rw [List.find?_cons_of_pos _ (by simpa using hk)]
        constructor
        · intro h
          rcases List.mem_cons.mp h with rfl | h
          · exact ⟨hk ▸ hx, rfl⟩
          · have hmem : key e ∈ key x :: seen := by simp [hk]
            exact absurd hmem (key_not_seen_of_mem_firstOccur key h)
        · rintro ⟨hne, heq⟩
          obtain rfl := Option.some.inj heq
          exact List.mem_cons_self _ _
    · have hfind : (x :: xs).find? (fun y => decide (key y = key e)) =
          xs.find? (fun y => decide (key y = key e)) :=
        List.find?_cons_of_neg _ (by simpa using hk)
      by_cases hx : key x ∈ seen
      · rw [firstOccur, if_pos hx, hfind]
        exact ih
      · rw [firstOccur, if_neg hx, hfind]
        constructor
        · intro h
          rcases List.mem_cons.mp h with rfl | h
          · exact absurd rfl hk
          · have := ih.mp h
            exact ⟨fun hc => this.1 (List.mem_cons_of_mem _ hc), this.2⟩
        · rintro ⟨hne, hfind2⟩
          refine List.mem_cons_of_mem _ (ih.mpr ⟨?_, hfind2⟩)
          intro hc
          rcases List.mem_cons.mp hc with hc | hc
          · exact hk hc.symm
          · exact hne hc

end FirstOccur

/-! ## NERService (`services/ner_service.py`)

An entity dict of the service, with the fields the pipeline reads and
writes.  `start`/`stop` are `Int` because generative replies carry
arbitrary JSON integers; the merge and scoring steps never read them. -/

structure Entity where
  text : List Char
  etype : String
  start : Int
  stop : Int
  method : String
  confidence : ℚ
deriving DecidableEq, Repr

/-- `NERService.entity_patterns`: the literal rule table. -/
def entityPatterns : List (String × List (List Char)) :=
  [("COMPANY", ["公司".toList, "银行".toList, "保险".toList, "基金".toList,
                "证券".toList, "投资".toList, "信托".toList]),
   ("PRODUCT", ["基金".toList, "债券".toList, "股票".toList, "期权".toList,
                "期货".toList, "保险".toList, "理财".toList]),
   ("INDICATOR", ["利率".toList, "汇率".toList, "收益率".toList, "风险".toList,
                  "波动率".toList, "夏普比率".toList]),
   ("REGULATION", ["法规".toList, "规定".toList, "政策".toList, "标准".toList,
                   "指引".toList, "办法".toList]),
   ("CURRENCY", ["美元".toList, "欧元".toList, "人民币".toList, "日元".toList,
                 "英镑".toList, "港币".toList]),
   ("MARKET", ["股市".toList, "债市".toList, "汇市".toList, "期货市场".toList,
               "期权市场".toList]),
   ("RISK", ["信用风险".toList, "市场风险".toList, "操作风险".toList,
             "流动性风险".toList]),
   ("ACCOUNT", ["活期账户".toList, "定期账户".toList, "投资账户".toList,
                "信用账户".toList]),
   ("INSTRUMENT", ["股票".toList, "债券".toList, "期权".toList, "期货".toList,
                   "互换".toList, "远期".toList]),
   ("PERSON", ["分析师".toList, "基金经理".toList, "投资顾问".toList,
               "风险经理".toList])]

/-- `NERService._extract_entities_by_rules`: for every pattern contained in
the text, one entity at the first occurrence, confidence fixed at 0.7. -/
def extractEntitiesByRules (text : List Char) : List Entity :=
  entityPatterns.flatMap (fun tp =>
    tp.2.filterMap (fun pat =>
      if pyContains pat text then
        some { text := pat, etype := tp.1,
               start := (pyFindIdx text pat : Int),
               stop := ((pyFindIdx text pat + pat.length : Nat) : Int),
               method := "rule_based", confidence := 0.7 }
      else none))

/-- Outcome of the generative call in `_extract_entities_with_ollama`: the
transport may raise, the reply may not be JSON, or a list of entity dicts
is decoded. -/
inductive LlmNerReply where
  | chatError (msg : String)
  | badJson
  | parsed (entities : List Entity)
deriving DecidableEq, Repr

/-- `NERService._extract_entities_with_ollama`: both failure arms degrade to
an empty list; a decoded list gets `method`/`confidence` stamped on every
entry. -/
def extractEntitiesWithOllama (reply : LlmNerReply) : List Entity :=
  match reply with
  | .chatError _ => []
  | .badJson => []
  | .parsed es => es.map (fun e => { e with method := "llm_based", confidence := 0.8 })

/-- Python `options.get(k, d)` over a string-keyed dict, embedded as an
association list. -/
def dictGetD (opts : List (String × String)) (k d : String) : String :=
  (opts.lookup k).getD d

/-- `NERService._extract_entities_by_llm`: dispatch on the configured
provider; an unsupported provider contributes nothing. -/
def extractEntitiesByLlm (opts : List (String × String)) (reply : LlmNerReply) : List Entity :=
  let provider := dictGetD opts "provider" "ollama"
  if provider = "ollama" then extractEntitiesWithOllama reply else []

/-- `NERService._extract_entities_by_vector` returns an empty list. -/
def extractEntitiesByVector : List Entity := []

/-- Dedup key of `_merge_entities`: the raw entity text with its type. -/
def entityKey (e : Entity) : List Char × String :=
  (e.text, e.etype)

/-- `NERService._merge_entities`: one first-occurrence pass per source, in
the order rule, generative, vector, sharing one `seen` set. -/
def mergeEntities (ruleEntities llmEntities vectorEntities : List Entity) : List Entity :=
  let r1 := firstOccurLoop entityKey [] [] ruleEntities
  let r2 := firstOccurLoop entityKey r1.1 r1.2 llmEntities
  (firstOccurLoop entityKey r2.1 r2.2 vectorEntities).2

/-- `NERService._calculate_confidence`, translated step by step: method
weight, length adjustment, frequency adjustment, then `min(•, 1.0)`. -/
def calcConfidence (e : Entity) (text : List Char) : ℚ :=
  let base := e.confidence
  let base := if e.method = "rule_based" then base * 0.9
    else if e.method = "llm_based" then base * 1.0
    else if e.method = "vector_based" then base * 0.95
    else base
  let entityLength := e.text.length
  let base := if entityLength ≥ 3 then base * 1.1
    else if entityLength ≤ 1 then base * 0.8
    else base
  let frequency := pyCount text e.text
  let base := if frequency = 1 then base * 1.0
    else if frequency > 1 then base * 0.9
    else base
  min base 1

/-- The method factor of `_calculate_confidence` as a function: rule 0.9,
generative 1.0, vector 0.95, other methods unchanged. -/
def methodWeight (m : String) : ℚ :=
  if m = "rule_based" then 0.9
  else if m = "llm_based" then 1.0
  else if m = "vector_based" then 0.95
  else 1

/-- The length factor of `_calculate_confidence` as a function. -/
def lengthAdjustment (n : Nat) : ℚ :=
  if n ≥ 3 then 1.1 else if n ≤ 1 then 0.8 else 1

/-- The frequency factor of `_calculate_confidence` as a function; any
count other than one or more-than-one (that is, zero) leaves the
confidence unchanged. -/
def frequencyAdjustment (f : Nat) : ℚ :=
  if f = 1 then 1.0 else if f > 1 then 0.9 else 1

/-- `_calculate_confidence` with the occurrence count made a parameter;
`calcConfidence` is this at `pyCount text e.text`. -/
def calcConfidenceWithFreq (e : Entity) (frequency : Nat) : ℚ :=
  let base := e.confidence
  let base := if e.method = "rule_based" then base * 0.9
    else if e.method = "llm_based" then base * 1.0
    else if e.method = "vector_based" then base * 0.95
    else base
  let entityLength := e.text.length
  let base := if entityLength ≥ 3 then base * 1.1
    else if entityLength ≤ 1 then base * 0.8
    else base
  let base := if frequency = 1 then base * 1.0
    else if frequency > 1 then base * 0.9
    else base
  min base 1

/-- Ordering used by the final `sort(key=confidence, reverse=True)` of
`extract_entities`: descending confidence. -/
def entityConfGe (a b : Entity) : Prop :=
  b.confidence ≤ a.confidence

instance : DecidableRel entityConfGe :=
  fun a b => inferInstanceAs (Decidable (b.confidence ≤ a.confidence))

instance : IsTotal Entity entityConfGe :=
  ⟨fun a b => le_total b.confidence a.confidence⟩

instance : IsTrans Entity entityConfGe :=
  ⟨fun _ _ _ h1 h2 => le_trans h2 h1⟩

/-- Result dict of `NERService.extract_entities`.  The Python
`entity_types` field is `list(set(...))`, whose iteration order is
unspecified; it is embedded as the first-occurrence list of types. -/
structure NerResult where
  text : List Char
  entities : List Entity
  entityCount : Nat
  entityTypes : List String
  message : String
deriving DecidableEq, Repr

/-- `NERService.extract_entities` on the success path: rules, generative
source, vector source, merge, rescore, stable sort by descending
confidence. -/
def extractEntities (text : List Char) (opts : List (String × String))
    (reply : LlmNerReply) : NerResult :=
  let ruleEntities := extractEntitiesByRules text
  let llmEntities := extractEntitiesByLlm opts reply
  let vectorEntities := extractEntitiesByVector
  let allEntities := mergeEntities ruleEntities llmEntities vectorEntities
  let scored := allEntities.map (fun e => { e with confidence := calcConfidence e text })
  let sorted := scored.insertionSort entityConfGe
  { text := text, entities := sorted, entityCount := sorted.length,
    entityTypes := (sorted.map (fun e => e.etype)).eraseDups,
    message := "实体识别完成" }

/-- The dedup key the spec prescribes, in the spec's words: the
case-normalized entity text with the category.  Kept separate from
`entityKey` (the key the code uses) so the two can be compared. -/
def specNormalizedKey (e : Entity) : List Char × String :=
  (e.text.map Char.toLower, e.etype)

/-! ## CorrService (`services/corr_service.py`) -/

/-- A correction dict: original span text, replacement, half-open offsets
into the snapshot, plus the bookkeeping fields the service sets. -/
structure Correction where
  original : List Char
  corrected : List Char
  start : Nat
  stop : Nat
  ctype : String
  confidence : ℚ
  method : String
deriving DecidableEq, Repr

/-- `CorrService.common_typos` in source order; every entry except the
first maps a spelling to itself. -/
def commonTypos : List (List Char × List Char) :=
  [("投姿".toList, "投资".toList),
   ("股票".toList, "股票".toList), ("债券".toList, "债券".toList),
   ("基金".toList, "基金".toList), ("期货".toList, "期货".toList),
   ("期权".toList, "期权".toList), ("收益率".toList, "收益率".toList),
   ("风险".toList, "风险".toList), ("银行".toList, "银行".toList),
   ("存款".toList, "存款".toList), ("贷款".toList, "贷款".toList),
   ("利率".toList, "利率".toList), ("汇率".toList, "汇率".toList),
   ("账户".toList, "账户".toList), ("信用卡".toList, "信用卡".toList),
   ("保险".toList, "保险".toList), ("理赔".toList, "理赔".toList),
   ("保费".toList, "保费".toList), ("保单".toList, "保单".toList),
   ("受益人".toList, "受益人".toList), ("证券".toList, "证券".toList),
   ("交易所".toList, "交易所".toList), ("经纪人".toList, "经纪人".toList),
   ("分析师".toList, "分析师".toList), ("会计".toList, "会计".toList),
   ("财务报表".toList, "财务报表".toList),
   ("资产负债表".toList, "资产负债表".toList),
   ("利润表".toList, "利润表".toList),
   ("现金流量表".toList, "现金流量表".toList),
   ("税务".toList, "税务".toList), ("税率".toList, "税率".toList),
   ("税收".toList, "税收".toList), ("申报".toList, "申报".toList),
   ("减免".toList, "减免".toList)]

/-- `CorrService.financial_patterns`: each regex is a sequence of character
classes (a one-character class for a literal character). -/
def financialPatterns : List (List (List Char)) :=
  [["投".toList, "资姿".toList],
   ["银银".toList, "行".toList],
   ["保保".toList, "险".toList],
   ["证证".toList, "券".toList],
   ["基基".toList, "金".toList],
   ["股股".toList, "票".toList],
   ["债债".toList, "券".toList],
   ["期期".toList, "货".toList],
   ["期期".toList, "权".toList],
   ["汇汇".toList, "率".toList],
   ["利利".toList, "率".toList],
   ["收收".toList, "益".toList, "率".toList],
   ["风风".toList, "险".toList],
   ["会会".toList, "计".toList],
   ["税税".toList, "务".toList],
   ["监监".toList, "管".toList]]

/-- `CorrService._correct_by_rules`: the typo-dictionary pass (first
occurrence, confidence 0.9) followed by the pattern pass (every
non-overlapping match, the matched text kept as its own replacement,
confidence 0.7). -/
def correctByRules (text : List Char) : List Correction :=
  let typoCorrections := commonTypos.filterMap (fun tc =>
    if pyContains tc.1 text then
      some { original := tc.1, corrected := tc.2,
             start := pyFindIdx text tc.1,
             stop := pyFindIdx text tc.1 + tc.1.length,
             ctype := "common_typo", confidence := 0.9,
             method := "rule_based" }
    else none)
  let patternCorrections := financialPatterns.flatMap (fun pat =>
    (reFinditer pat text).map (fun m =>
      { original := m.2, corrected := m.2,
        start := m.1, stop := m.1 + m.2.length,
        ctype := "pattern_match", confidence := 0.7,
        method := "rule_based" }))
  typoCorrections ++ patternCorrections

/-- Outcome of the generative call in `_correct_with_ollama`. -/
inductive LlmCorrReply where
  | chatError (msg : String)
  | badJson
  | parsed (corrections : List Correction)
deriving DecidableEq, Repr

/-- `CorrService._correct_with_ollama`: failure arms degrade to an empty
list; decoded corrections get `method` stamped. -/
def correctWithOllama (reply : LlmCorrReply) : List Correction :=
  match reply with
  | .chatError _ => []
  | .badJson => []
  | .parsed cs => cs.map (fun c => { c with method := "llm_based" })

/-- `CorrService._correct_by_llm`: a falsy options dict is replaced by the
default one, then dispatch on the provider. -/
def correctByLlm (opts : Option (List (String × String))) (reply : LlmCorrReply) :
    List Correction :=
  let opts := match opts with
    | none => [("provider", "ollama"), ("model", "qwen2.5:7b")]
    | some o => if o = [] then [("provider", "ollama"), ("model", "qwen2.5:7b")] else o
  let provider := dictGetD opts "provider" "ollama"
  if provider = "ollama" then correctWithOllama reply else []

/-- Dedup key of `_merge_corrections`. -/
def corrKey (c : Correction) : Nat × Nat × List Char :=
  (c.start, c.stop, c.original)

/-- Ordering used by the `sort(key=start)` of `_merge_corrections`:
ascending start offset. -/
def corrStartLe (a b : Correction) : Prop :=
  a.start ≤ b.start

instance : DecidableRel corrStartLe :=
  fun a b => inferInstanceAs (Decidable (a.start ≤ b.start))

instance : IsTotal Correction corrStartLe :=
  ⟨fun a b => Nat.le_total a.start b.start⟩

instance : IsTrans Correction corrStartLe :=
  ⟨fun _ _ _ h1 h2 => Nat.le_trans h1 h2⟩

/-- `CorrService._merge_corrections`: first-occurrence dedup of the rule
list then the generative list, then a stable sort by start offset. -/
def mergeCorrections (ruleCorrections llmCorrections : List Correction) : List Correction :=
  let r1 := firstOccurLoop corrKey [] [] ruleCorrections
  let r2 := (firstOccurLoop corrKey r1.1 r1.2 llmCorrections).2
  r2.insertionSort corrStartLe

/-- Validity check of `_apply_corrections`: both offsets in range and the
current text at the span equal to the recorded original. -/
def applyCheck (t : List Char) (c : Correction) : Bool :=
  decide (c.start < t.length) && decide (c.stop ≤ t.length) &&
    decide (pySlice t c.start c.stop = c.original)

/-- One entry of the `_apply_corrections` loop: replace the whole span when
the check passes, otherwise leave the text untouched. -/
def applyStep (t : List Char) (c : Correction) : List Char :=
  if applyCheck t c then t.take c.start ++ c.corrected ++ t.drop c.stop else t

/-- `CorrService._apply_corrections`: fold the entries over the text in
reversed list order (descending start once the merge has sorted them). -/
def applyCorrections (t : List Char) (cs : List Correction) : List Char :=
  if cs = [] then t else cs.reverse.foldl applyStep t

/-- Result dict of `CorrService.correct_text` (the statistics sub-dict,
which no claim touches, is not embedded). -/
structure CorrResult where
  originalText : List Char
  correctedText : List Char
  corrections : List Correction
  correctionCount : Nat
  message : String
deriving DecidableEq, Repr

/-- The body of the `try` block of `correct_text`: gather, merge, apply,
and assemble the result, whose count is the length of the merged list. -/
def correctTextCore (text : List Char) (opts : Option (List (String × String)))
    (reply : LlmCorrReply) : CorrResult :=
  let ruleCorrections := correctByRules text
  let llmCorrections := correctByLlm opts reply
  let allCorrections := mergeCorrections ruleCorrections llmCorrections
  let correctedText := applyCorrections text allCorrections
  { originalText := text, correctedText := correctedText,
    corrections := allCorrections,
    correctionCount := allCorrections.length,
    message := "拼写纠正完成" }

/-- `CorrService.correct_text` with the fallible body abstracted: an
`Except.error` models a Python exception escaping the `try` block, and the
handler degrades to the unmodified text with no corrections. -/
def correct_text (text : List Char) (body : Except String CorrResult) : CorrResult :=
  match body with
  | .ok r => r
  | .error e =>
    { originalText := text, correctedText := text, corrections := [],
      correctionCount := 0, message := "拼写纠正失败: " ++ e }

/-- Modelled from the spec: "the count of entries actually applied" — the
number of entries whose check passes while the applier runs.  The code
computes no such count; this definition exists to state the comparison. -/
def specAppliedCount (t : List Char) (cs : List Correction) : Nat :=
  (cs.reverse.foldl
    (fun st c =>
      if applyCheck st.1 c then (st.1.take c.start ++ c.corrected ++ st.1.drop c.stop, st.2 + 1)
      else st)
    (t, (0 : Nat))).2

/-! ## Embedding factory (`utils/embedding_factory.py`, `utils/embedding_config.py`) -/

/-- `EmbeddingProvider` enum. -/
inductive Provider where
  | openai
  | bedrock
  | huggingface
deriving DecidableEq, Repr

/-- `EmbeddingConfig` pydantic model with its defaults. -/
structure EmbeddingConfig where
  provider : Provider
  modelName : String
  apiKey : Option String := none
  apiBase : Option String := none
  maxLength : Nat := 512
  device : String := "cpu"
  trustRemoteCode : Bool := true
deriving DecidableEq, Repr

/-- The value `create_embedding_function` returns: the embedding closure of
one of the three real providers, or the null (zero-vector) fallback. -/
inductive EmbedFn where
  | huggingfaceFn (cfg : EmbeddingConfig)
  | openaiFn (cfg : EmbeddingConfig)
  | bedrockFn (cfg : EmbeddingConfig)
  | defaultFn
deriving DecidableEq, Repr

/-- Whether each provider branch's construction (imports, model/client
setup) succeeds; `false` stands for the `except` arms of that branch. -/
structure CreateOutcome where
  hfOk : Bool
  openaiOk : Bool
  bedrockOk : Bool
deriving DecidableEq, Repr

/-- `EmbeddingFactory.create_embedding_function`: dispatch on the provider;
every failure falls back to the default embedding. -/
def createEmbeddingFunction (cfg : EmbeddingConfig) (oc : CreateOutcome) : EmbedFn :=
  match cfg.provider with
  | .huggingface => if oc.hfOk then .huggingfaceFn cfg else .defaultFn
  | .openai => if oc.openaiOk then .openaiFn cfg else .defaultFn
  | .bedrock => if oc.bedrockOk then .bedrockFn cfg else .defaultFn

/-- Whether the branch for the configured provider succeeds. -/
def providerCreationOk (cfg : EmbeddingConfig) (oc : CreateOutcome) : Bool :=
  match cfg.provider with
  | .huggingface => oc.hfOk
  | .openai => oc.openaiOk
  | .bedrock => oc.bedrockOk

/-- The embedding closure the configured provider would give on success. -/
def realProviderFn (cfg : EmbeddingConfig) : EmbedFn :=
  match cfg.provider with
  | .huggingface => .huggingfaceFn cfg
  | .openai => .openaiFn cfg
  | .bedrock => .bedrockFn cfg

/-- The `embed_query` closure built by `_create_default_embedding`: a
zero vector of length 1024, whatever the text. -/
def defaultEmbedQuery (_text : List Char) : List ℚ :=
  List.replicate 1024 0

/-- The per-provider dimension tables of `get_embedding_dimension`. -/
def dimensionMap (p : Provider) : List (String × Nat) :=
  match p with
  | .huggingface =>
    [("BAAI/bge-m3", 1024), ("BAAI/bge-large-zh", 1024), ("BAAI/bge-base-zh", 768),
     ("sentence-transformers/all-MiniLM-L6-v2", 384),
     ("sentence-transformers/all-mpnet-base-v2", 768)]
  | .openai =>
    [("text-embedding-ada-002", 1536), ("text-embedding-3-small", 1536),
     ("text-embedding-3-large", 3072)]
  | .bedrock =>
    [("amazon.titan-embed-text-v1", 1536), ("cohere.embed-english-v3", 1024),
     ("cohere.embed-multilingual-v3", 1024)]

/-- `EmbeddingFactory.get_embedding_dimension`: nested dict lookup with
1024 as the default for unknown pairs. -/
def getEmbeddingDimension (p : Provider) (modelName : String) : Nat :=
  ((dimensionMap p).lookup modelName).getD 1024

/-! ## StdService (`services/std_service.py`) -/

/-- Python `str.lower()`, character-wise. -/
def pyStrLower (s : String) : String :=
  ⟨s.data.map Char.toLower⟩

/-- The `provider_mapping` dict of `StdService.__init__`. -/
def providerMapping (s : String) : Option Provider :=
  if s = "openai" then some Provider.openai
  else if s = "bedrock" then some Provider.bedrock
  else if s = "huggingface" then some Provider.huggingface
  else none

/-- The state `StdService.__init__` installs: the embedding closure, the
Milvus connection (carried as its database path) and the loaded
collection. -/
structure StdState where
  embeddingFunc : EmbedFn
  dbPath : String
  collectionName : String
deriving DecidableEq, Repr

/-- `StdService.__init__`: resolve the lower-cased provider string (a
`ValueError` for an unknown one), build the embedding function, connect. -/
def stdInit (provider model dbPath collection : String) (oc : CreateOutcome) :
    Except String StdState :=
  match providerMapping (pyStrLower provider) with
  | none => .error ("Unsupported provider: " ++ provider)
  | some p =>
    .ok { embeddingFunc := createEmbeddingFunction { provider := p, modelName := model } oc,
          dbPath := dbPath, collectionName := collection }

/-- The reconfiguration step at the top of `standardize_text`: reinitialize
(flag `true`) exactly when the request differs from the hard-coded default
tuple; an init failure surfaces as the error the surrounding handler
catches. -/
def stdReconfig (s : StdState) (oc : CreateOutcome)
    (provider model dbName collection : String) : Except String (StdState × Bool) :=
  if provider ≠ "huggingface" ∨ model ≠ "BAAI/bge-m3" ∨
      dbName ≠ "financial_bge_m3" ∨ collection ≠ "financial_concepts" then
    match stdInit provider model ("db/" ++ dbName ++ ".db") collection oc with
    | .ok s' => .ok (s', true)
    | .error e => .error e
  else
    .ok (s, false)

/-- A hit of `search_similar_terms`, with the fields `standardize_text`
reads. -/
structure SearchHit where
  termName : String
  category : String
  definition : String
  synonyms : List String
  distance : ℚ
deriving DecidableEq, Repr

/-- The distance-to-confidence map of `standardize_text`:
`1.0 - min(distance, 1.0)`. -/
def distanceToConfidence (d : ℚ) : ℚ :=
  1 - min d 1

/-- An entry of the `standardized_terms` list. -/
structure StandardizedTerm where
  standardTerm : String
  category : String
  definition : String
  synonyms : List String
  confidence : ℚ
deriving DecidableEq, Repr

/-- Result dict of `standardize_text`. -/
structure StdResult where
  originalText : List Char
  standardizedTerms : List StandardizedTerm
  confidence : ℚ
  bestMatch : Option String
  message : String
deriving DecidableEq, Repr

/-- The result-building tail of `standardize_text`, given the hits the
vector search returned: zero hits communicate "no match" with confidence
0, otherwise every hit is mapped through the distance-to-confidence
formula and the first hit is the best match. -/
def standardizeTextResult (text : List Char) (hits : List SearchHit) : StdResult :=
  match hits with
  | [] =>
    { originalText := text, standardizedTerms := [], confidence := 0,
      bestMatch := none, message := "未找到匹配的标准术语" }
  | best :: _ =>
    { originalText := text,
      standardizedTerms := hits.map (fun t =>
        { standardTerm := t.termName, category := t.category,
          definition := t.definition, synonyms := t.synonyms,
          confidence := distanceToConfidence t.distance }),
      confidence := distanceToConfidence best.distance,
      bestMatch := some best.termName,
      message := "标准化完成" }

/-! ## Concrete inputs used by the counterexamples and witnesses -/

/-- A generative-source entity whose text is upper-case. -/
def entityEtfUpper : Entity :=
  { text := "ETF".toList, etype := "PRODUCT", start := 0, stop := 3,
    method := "llm_based", confidence := 1 }

/-- A generative-source entity that differs from `entityEtfUpper` only in
case (and carries a higher confidence). -/
def entityEtfLower : Entity :=
  { text := "etf".toList, etype := "PRODUCT", start := 4, stop := 7,
    method := "llm_based", confidence := 2 }

/-- A generative-source correction whose recorded original does not match
the snapshot, so the applier skips it. -/
def strayCorrection : Correction :=
  { original := "zz".toList, corrected := "qq".toList, start := 0, stop := 2,
    ctype := "spelling", confidence := 1, method := "llm_based" }

/-- An entity whose text occurs in no input text used with it. -/
def absentTextEntity : Entity :=
  { text := "xyz".toList, etype := "COMPANY", start := 0, stop := 3,
    method := "llm_based", confidence := 1 }

/-- A rule-source entity used to instantiate the scoring theorem. -/
def witnessEntity : Entity :=
  { text := "基金".toList, etype := "COMPANY", start := 0, stop := 2,
    method := "rule_based", confidence := 0.7 }

/-- The engine state after a successful reconfiguration to the OpenAI
provider with a custom database and collection. -/
def openaiState : StdState :=
  { embeddingFunc := EmbedFn.openaiFn
      { provider := Provider.openai, modelName := "text-embedding-ada-002" },
    dbPath := "db/custom.db", collectionName := "custom_coll" }

/-- A configuration naming a registered OpenAI model whose registered
dimension is 1536. -/
def openaiAdaConfig : EmbeddingConfig :=
  { provider := Provider.openai, modelName := "text-embedding-ada-002" }

/-! ## Supporting lemmas -/

theorem firstOccurSeen_append {α κ : Type} [DecidableEq κ] (key : α → κ)
    (seen : List κ) (xs ys : List α) :
    firstOccurSeen key seen (xs ++ ys) = firstOccurSeen key (firstOccurSeen key seen xs) ys := by
  induction xs generalizing seen with
  | nil => simp [firstOccurSeen]
  | cons x xs ih =>
    by_cases h : key x ∈ seen
    · simp [firstOccurSeen, h, ih]
    · simp [firstOccurSeen, h, ih]

theorem mergeEntities_eq_firstOccur (ruleEntities llmEntities vectorEntities : List Entity) :
    mergeEntities ruleEntities llmEntities vectorEntities =
      firstOccur entityKey [] (ruleEntities ++ llmEntities ++ vectorEntities) := by
  simp only [mergeEntities, firstOccurLoop_eq, firstOccur_append, firstOccurSeen_append,
    List.nil_append, List.append_assoc]

/-- Clamping from above a non-negative quantity equals the two-sided
clamp of the spec's formula. -/
theorem clamp_min_eq {x y : ℚ} (hxy : x = y) (hx : 0 ≤ x) :
    min x 1 = max 0 (min 1 y) ∧ 0 ≤ min x 1 ∧ min x 1 ≤ 1 := by
  subst hxy
  have h1 : (0 : ℚ) ≤ min 1 x := le_min (by norm_num) hx
  refine ⟨?_, le_min hx (by norm_num), min_le_right _ _⟩
  rw [min_comm x 1]
  exact (max_eq_right h1).symm

/-! ## Claim theorems -/

/-- C1, counterexample: `_merge_entities` keys on the raw entity text, so
two generative candidates that differ only in case both survive the merge
— the output is not deduplicated under the spec's case-normalized key. -/
theorem mergeEntities_caseKey_counterexample :
    (mergeEntities []
        (extractEntitiesWithOllama (LlmNerReply.parsed [entityEtfUpper, entityEtfLower]))
        []).length = 2 ∧
    ¬ ((mergeEntities []
        (extractEntitiesWithOllama (LlmNerReply.parsed [entityEtfUpper, entityEtfLower]))
        []).map specNormalizedKey).Nodup ∧
    ((mergeEntities []
        (extractEntitiesWithOllama (LlmNerReply.parsed [entityEtfUpper, entityEtfLower]))
        []).map entityKey).Nodup ∧
    specNormalizedKey entityEtfUpper = specNormalizedKey entityEtfLower := by
  decide

/-- C1, amended: the merged output contains at most one entry per
(raw, case-sensitive text, category) key; the retained entry is the first
occurrence of its key in the concatenation rule ++ generative ++ vector
(so the one contributed by the highest-priority source, later duplicates
discarded whatever their confidence), and the output order is the
concatenation order. -/
theorem mergeEntities_dedup_spec (ruleEntities llmEntities vectorEntities : List Entity) :
    (mergeEntities ruleEntities llmEntities vectorEntities).Sublist
        (ruleEntities ++ llmEntities ++ vectorEntities) ∧
    ((mergeEntities ruleEntities llmEntities vectorEntities).map entityKey).Nodup ∧
    ∀ e, e ∈ mergeEntities ruleEntities llmEntities vectorEntities ↔
      (ruleEntities ++ llmEntities ++ vectorEntities).find?
          (fun y => decide (entityKey y = entityKey e)) = some e := by
  rw [mergeEntities_eq_firstOccur]
  refine ⟨firstOccur_sublist entityKey [] _, ?_, ?_⟩
  · exact List.pairwise_map.mpr (firstOccur_pairwise entityKey [] _)
  · intro e
    rw [mem_firstOccur_iff entityKey]
    simp

/-- C2, counterexample: on the snapshot "abcd" with one generative entry
whose original does not match, the applier applies nothing, yet the
result's `correction_count` is 1 — it counts the candidate entries of the
merged list, not the entries actually applied. -/
theorem correctText_count_counterexample :
    (correctTextCore "abcd".toList none (LlmCorrReply.parsed [strayCorrection])).correctionCount
        = 1 ∧
    specAppliedCount "abcd".toList
        (correctTextCore "abcd".toList none
          (LlmCorrReply.parsed [strayCorrection])).corrections = 0 ∧
    (correctTextCore "abcd".toList none (LlmCorrReply.parsed [strayCorrection])).correctedText
        = "abcd".toList := by
  decide

/-- C2, amended: the applier processes the merged entries in descending
start-offset order (the merged list is sorted ascending by start and is
folded in reverse); each entry is applied as one whole replacement when
the in-range-and-matching check passes and skipped otherwise; the result
carries the final text together with a count equal to the number of
candidate entries of the merged list (which can exceed the number
actually applied). -/
theorem correctTextCore_spec (text : List Char) (opts : Option (List (String × String)))
    (reply : LlmCorrReply) :
    (correctTextCore text opts reply).corrections =
        mergeCorrections (correctByRules text) (correctByLlm opts reply) ∧
    (correctTextCore text opts reply).correctionCount =
        (mergeCorrections (correctByRules text) (correctByLlm opts reply)).length ∧
    (correctTextCore text opts reply).correctedText =
        applyCorrections text (mergeCorrections (correctByRules text) (correctByLlm opts reply)) ∧
    List.Pairwise (fun a b => b.start ≤ a.start)
        (mergeCorrections (correctByRules text) (correctByLlm opts reply)).reverse ∧
    (∀ t c, applyStep t c =
        if applyCheck t c then t.take c.start ++ c.corrected ++ t.drop c.stop else t) := by
  have hs : List.Sorted corrStartLe
      (mergeCorrections (correctByRules text) (correctByLlm opts reply)) := by
    simp only [mergeCorrections]
    exact List.sorted_insertionSort corrStartLe _
  refine ⟨rfl, rfl, rfl, ?_, fun t c => rfl⟩
  exact List.pairwise_reverse.mpr hs

/-- C3: every entry is applied atomically — one step of the applier either
performs the whole replacement or returns the text unchanged, and for a
skipped entry the text at the entry's original span is exactly what it was
before the entry was processed. -/
theorem applyCorrections_atomic (text : List Char) (cs : List Correction) :
    applyCorrections text cs = cs.reverse.foldl applyStep text ∧
    ∀ t c, applyStep t c = t.take c.start ++ c.corrected ++ t.drop c.stop ∨
      (applyStep t c = t ∧
        pySlice (applyStep t c) c.start c.stop = pySlice t c.start c.stop) := by
  constructor
  · by_cases h : cs = []
    · subst h
      simp [applyCorrections]
    · simp [applyCorrections, h]
  · intro t c
    unfold applyStep
    split
    · left
      rfl
    · right
      exact ⟨rfl, rfl⟩

/-- C4: the correction entry point is total — an exception escaping the
body degrades to the unmodified input text with an empty corrections list
and a zero count, and a completed body is returned as is, so the caller
always receives a result. -/
theorem correct_text_never_raises (text : List Char) (e : String) :
    correct_text text (Except.error e) =
      { originalText := text, correctedText := text, corrections := [],
        correctionCount := 0, message := "拼写纠正失败: " ++ e } ∧
    (correct_text text (Except.error e)).correctedText = text ∧
    (correct_text text (Except.error e)).correctionCount = 0 ∧
    (correct_text text (Except.error e)).corrections = [] ∧
    ∀ r : CorrResult, correct_text text (Except.ok r) = r :=
  ⟨rfl, rfl, rfl, rfl, fun _ => rfl⟩

/-- C5: for a candidate with non-negative base confidence (every pipeline
source stamps 0.7, 0.8 or 0.95-weighted values), the final confidence is
the product of the base with the method weight, the length adjustment and
the frequency adjustment, clamped to [0, 1]; in particular it always lies
in [0, 1]. -/
theorem calcConfidence_clamped (e : Entity) (text : List Char) (h : 0 ≤ e.confidence) :
    calcConfidence e text =
      max 0 (min 1 (e.confidence * methodWeight e.method *
        lengthAdjustment e.text.length * frequencyAdjustment (pyCount text e.text))) ∧
    0 ≤ calcConfidence e text ∧ calcConfidence e text ≤ 1 := by
  simp only [calcConfidence, methodWeight, lengthAdjustment, frequencyAdjustment]
  split_ifs <;> exact clamp_min_eq (by ring) (by linarith)

/-- C5, witness at a concrete rule entity. -/
theorem calcConfidence_clamped_witness :
    0 ≤ witnessEntity.confidence ∧
    0 ≤ calcConfidence witnessEntity [] ∧ calcConfidence witnessEntity [] ≤ 1 :=
  ⟨by norm_num [witnessEntity],
   (calcConfidence_clamped witnessEntity [] (by norm_num [witnessEntity])).2⟩

/-- C10: when the candidate's text does not occur in the input at all, the
frequency factor is 1 — the candidate is scored exactly as if it occurred
once. -/
theorem calcConfidence_absentText (e : Entity) (text : List Char)
    (h : pyCount text e.text = 0) :
    calcConfidence e text = calcConfidenceWithFreq e 1 ∧
    frequencyAdjustment 0 = 1 ∧ frequencyAdjustment 1 = 1 := by
  refine ⟨?_, by norm_num [frequencyAdjustment], by norm_num [frequencyAdjustment]⟩
  simp only [calcConfidence, calcConfidenceWithFreq, h]
  norm_num

/-- C10, witness at an entity whose text is absent from the input. -/
theorem calcConfidence_absentText_witness :
    pyCount [] absentTextEntity.text = 0 ∧
    calcConfidence absentTextEntity [] = calcConfidenceWithFreq absentTextEntity 1 :=
  ⟨by decide, (calcConfidence_absentText absentTextEntity [] (by decide)).1⟩

/-- C8: a transport failure, a non-JSON reply, and an unsupported provider
each degrade the generative source to an empty candidate list, and the
pipeline result under such a failure is exactly the result with an empty
generative contribution — the merge always receives a list and a result is
always produced. -/
theorem llmSource_failures_degrade (text : List Char) (opts : List (String × String))
    (msg : String) :
    extractEntitiesByLlm opts (LlmNerReply.chatError msg) = [] ∧
    extractEntitiesByLlm opts LlmNerReply.badJson = [] ∧
    (∀ reply, dictGetD opts "provider" "ollama" ≠ "ollama" →
      extractEntitiesByLlm opts reply = []) ∧
    extractEntities text opts (LlmNerReply.chatError msg) =
      extractEntities text opts (LlmNerReply.parsed []) ∧
    extractEntities text opts LlmNerReply.badJson =
      extractEntities text opts (LlmNerReply.parsed []) := by
  have hcongr : ∀ r1 r2 : LlmNerReply,
      extractEntitiesByLlm opts r1 = extractEntitiesByLlm opts r2 →
      extractEntities text opts r1 = extractEntities text opts r2 := by
    intro r1 r2 h
    simp only [extractEntities, h]
  have h1 : extractEntitiesByLlm opts (LlmNerReply.chatError msg) = [] := by
    by_cases h : dictGetD opts "provider" "ollama" = "ollama" <;>
      simp [extractEntitiesByLlm, extractEntitiesWithOllama, h]
  have h2 : extractEntitiesByLlm opts LlmNerReply.badJson = [] := by
    by_cases h : dictGetD opts "provider" "ollama" = "ollama" <;>
      simp [extractEntitiesByLlm, extractEntitiesWithOllama, h]
  have h3 : extractEntitiesByLlm opts (LlmNerReply.parsed []) = [] := by
    by_cases h : dictGetD opts "provider" "ollama" = "ollama" <;>
      simp [extractEntitiesByLlm, extractEntitiesWithOllama, h]
  refine ⟨h1, h2, ?_, hcongr _ _ (h1.trans h3.symm), hcongr _ _ (h2.trans h3.symm)⟩
  intro reply h
  simp [extractEntitiesByLlm, h]

/-- C8, witness: an unsupported provider contributes no candidates even on
a successful reply. -/
theorem llmSource_failures_degrade_witness :
    dictGetD [("provider", "openai")] "provider" "ollama" ≠ "ollama" ∧
    extractEntitiesByLlm [("provider", "openai")]
      (LlmNerReply.parsed [entityEtfUpper]) = [] :=
  ⟨by decide,
   (llmSource_failures_degrade [] [("provider", "openai")] "boom").2.2.1
     (LlmNerReply.parsed [entityEtfUpper]) (by decide)⟩

/-- C9: the standardization distance-to-confidence map is
`1 − min(distance, 1)`: distance 0 gives 1, every distance at least 1
(for example 1 and 2) gives 0, it is strictly decreasing on [0, 1), and
`standardize_text` scores every returned term with exactly this map. -/
theorem distanceToConfidence_spec :
    distanceToConfidence 0 = 1 ∧
    distanceToConfidence 1 = 0 ∧
    distanceToConfidence 2 = 0 ∧
    (∀ d : ℚ, 1 ≤ d → distanceToConfidence d = 0) ∧
    (∀ d1 d2 : ℚ, 0 ≤ d1 → d1 < d2 → d2 < 1 →
      distanceToConfidence d2 < distanceToConfidence d1) ∧
    (∀ d : ℚ, 0 ≤ d → distanceToConfidence d = 1 - min d 1) ∧
    (∀ (text : List Char) (hits : List SearchHit),
      (standardizeTextResult text hits).standardizedTerms.map (fun t => t.confidence) =
        hits.map (fun h => distanceToConfidence h.distance)) := by
  refine ⟨?_, ?_, ?_, ?_, ?_, fun d _ => rfl, ?_⟩
  · simp [distanceToConfidence]
  · simp [distanceToConfidence]
  · rw [distanceToConfidence, min_eq_right (by norm_num : (1:ℚ) ≤ 2)]
    norm_num
  · intro d hd
    rw [distanceToConfidence, min_eq_right hd]
    ring
  · intro d1 d2 h0 h12 h21
    rw [distanceToConfidence, distanceToConfidence,
      min_eq_left (le_of_lt h21), min_eq_left (le_of_lt (lt_trans h12 h21))]
    linarith
  · intro text hits
    cases hits with
    | nil => rfl
    | cons best rest =>
      simp [standardizeTextResult, List.map_map]

/-- C6, counterexample: the reconfiguration check compares against the
hard-coded default tuple, not the currently active configuration — after a
reconfiguration to the OpenAI state, a call with that very same active
tuple reinitializes again (flag `true`), while a call with the default
tuple, which differs from the active configuration (its collection alone
differs), does not reinitialize (flag `false`). -/
theorem stdReconfig_activeConfig_counterexample :
    stdInit "openai" "text-embedding-ada-002" "db/custom.db" "custom_coll"
        ⟨true, true, true⟩ = Except.ok openaiState ∧
    stdReconfig openaiState ⟨true, true, true⟩
        "openai" "text-embedding-ada-002" "custom" "custom_coll" =
      Except.ok (openaiState, true) ∧
    stdReconfig openaiState ⟨true, true, true⟩
        "huggingface" "BAAI/bge-m3" "financial_bge_m3" "financial_concepts" =
      Except.ok (openaiState, false) ∧
    openaiState.collectionName ≠ "financial_concepts" := by
  decide

/-- C6, amended: the engine reinitializes exactly when the requested
(provider, model, database, collection) tuple differs from the fixed
default tuple (huggingface, BAAI/bge-m3, financial_bge_m3,
financial_concepts), independently of the currently active configuration:
a non-default request rebuilds the state from scratch, a default request
never reinitializes. -/
theorem stdReconfig_defaults_spec (s : StdState) (oc : CreateOutcome)
    (p m d c : String) :
    (stdReconfig s oc p m d c = Except.ok (s, false) ↔
      p = "huggingface" ∧ m = "BAAI/bge-m3" ∧ d = "financial_bge_m3" ∧
        c = "financial_concepts") ∧
    ((p ≠ "huggingface" ∨ m ≠ "BAAI/bge-m3" ∨ d ≠ "financial_bge_m3" ∨
        c ≠ "financial_concepts") →
      stdReconfig s oc p m d c =
        (stdInit p m ("db/" ++ d ++ ".db") c oc).map (fun s2 => (s2, true))) := by
  constructor
  · constructor
    · intro h
      by_cases hc : p ≠ "huggingface" ∨ m ≠ "BAAI/bge-m3" ∨ d ≠ "financial_bge_m3" ∨
          c ≠ "financial_concepts"
      · exfalso
        rw [stdReconfig, if_pos hc] at h
        cases hi : stdInit p m ("db/" ++ d ++ ".db") c oc with
        | ok s2 =>
          rw [hi] at h
          cases h
        | error e =>
          rw [hi] at h
          cases h
      · push_neg at hc
        exact hc
    · rintro ⟨h1, h2, h3, h4⟩
      rw [stdReconfig, if_neg]
      simp [h1, h2, h3, h4]
  · intro hc
    rw [stdReconfig, if_pos hc]
    cases hi : stdInit p m ("db/" ++ d ++ ".db") c oc <;> simp [hi, Except.map]

/-- C7, counterexample: with the OpenAI provider configured for a model
whose registered dimension is 1536, a failed creation falls back to the
null provider — whose zero vector has length 1024, not the registered
dimension of the configured pair. -/
theorem nullProvider_dimension_counterexample :
    createEmbeddingFunction openaiAdaConfig ⟨true, false, true⟩ = EmbedFn.defaultFn ∧
    (defaultEmbedQuery "x".toList).length = 1024 ∧
    getEmbeddingDimension openaiAdaConfig.provider openaiAdaConfig.modelName = 1536 ∧
    (defaultEmbedQuery "x".toList).length ≠
      getEmbeddingDimension openaiAdaConfig.provider openaiAdaConfig.modelName := by
  decide

/-- C7, amended: when creating the configured provider fails, the factory
falls back to the null provider (never a different real provider — on
success it returns exactly the configured provider's function), and the
null provider's embed deterministically returns an all-zero vector of
fixed length 1024, whatever the configured pair; the 1024 default of the
dimension table applies only to `get_embedding_dimension` on unknown
pairs, which the fallback does not consult. -/
theorem createEmbeddingFunction_fallback_spec (cfg : EmbeddingConfig)
    (oc : CreateOutcome) (text : List Char) (m : String) :
    (providerCreationOk cfg oc = false →
      createEmbeddingFunction cfg oc = EmbedFn.defaultFn) ∧
    (providerCreationOk cfg oc = true →
      createEmbeddingFunction cfg oc = realProviderFn cfg) ∧
    defaultEmbedQuery text = List.replicate 1024 0 ∧
    ((dimensionMap cfg.provider).lookup m = none →
      getEmbeddingDimension cfg.provider m = 1024) ∧
    (createEmbeddingFunction cfg oc = EmbedFn.defaultFn ∨
      createEmbeddingFunction cfg oc = realProviderFn cfg) := by
  obtain ⟨p, mn, ak, ab, ml, dv, tr⟩ := cfg
  refine ⟨?_, ?_, rfl, ?_, ?_⟩
  · intro h
    cases p <;> simp_all [createEmbeddingFunction, providerCreationOk]
  · intro h
    cases p <;> simp_all [createEmbeddingFunction, providerCreationOk, realProviderFn]
  · intro h
    simp [getEmbeddingDimension, h]
  · cases p <;> cases oc with
    | mk hf oa bd =>
      cases hf <;> cases oa <;> cases bd <;>
        simp [createEmbeddingFunction, realProviderFn]

end RagSystem
